import Mathlib

/-!
Verification of the SPA development server (`server.py`).

The program is a single HTTP request handler, `SPAHTTPHandler`, extending
`http.server.SimpleHTTPRequestHandler` and overriding only `do_GET`:

    def do_GET(self):
        url = urlparse(self.path)
        if os.path.exists(url.path[1:]) and not url.path.endswith("/"):
            super().do_GET()
        else:
            self.path = '/index.html'
            super().do_GET()

We embed Python strings as `List Char`, the filesystem visible to the
process (relative to its working directory, the document root) as an
association list from relative paths to entries, and HTTP responses as an
inductive type recording the delegated static-file mechanism's outcome.
-/

/-- A Python string, embedded as its list of characters. -/
abbrev PyStr := List Char

/-- A filesystem entry at some relative path: a regular file with its byte
contents, or a directory. -/
inductive Entry
  | file (contents : List Nat)
  | dir
  deriving DecidableEq

/-- The filesystem state visible to the server process, keyed by relative
path from the document root (the process working directory). -/
structure FileSystem where
  entries : List (PyStr × Entry)

/-- Look up the entry at a relative path, if any. -/
def lookupEntry (fs : FileSystem) (p : PyStr) : Option Entry :=
  fs.entries.lookup p

/-- Embedding of `os.path.exists(p)` for a relative path `p`: true when a
filesystem entry (file or directory) exists there. In Python,
`os.path.exists("")` is `False`, hence the emptiness guard. -/
def os_path_exists (fs : FileSystem) (p : PyStr) : Bool :=
  !p.isEmpty && (lookupEntry fs p).isSome

/-- Embedding of `str.endswith("/")`. -/
def endswith_sep (s : PyStr) : Bool :=
  s.getLast? == some '/'

/-- First stage of `urllib.parse.urlparse`: the fragment, everything from
the first `#` on, is split off. -/
def stripFragment (s : PyStr) : PyStr :=
  s.takeWhile (fun c => c != '#')

/-- Second stage of `urllib.parse.urlparse`: if the (fragment-stripped)
URL starts with `//`, the netloc extends up to the next `/`, `?` or `#`,
and the path is the remainder from that delimiter on. HTTP request targets
here are origin-form, so no scheme is present. -/
def splitNetloc : PyStr → PyStr
  | c1 :: c2 :: rest =>
      if c1 = '/' ∧ c2 = '/' then
        rest.dropWhile (fun c => c != '/' && c != '?' && c != '#')
      else c1 :: c2 :: rest
  | s => s

/-- Embedding of `urlparse(s).path`: the fragment is split off first, then
a leading `//netloc` is removed, then the query, everything from the first
remaining `?` on, is split off. -/
def urlparse_path (s : PyStr) : PyStr :=
  (splitNetloc (stripFragment s)).takeWhile (fun c => c != '?')

/-- The delegated static-file mechanism's response: 200 with the file's
bytes, the mechanism's own directory handling (index resolution or
redirect, external to this program) for a directory, or its 404. -/
inductive Response
  | ok (body : List Nat)
  | dirDelegate (rel : PyStr)
  | notFound
  deriving DecidableEq

/-- Resolution of a request path to a relative filesystem path: the
leading path separator is removed. -/
def stripSep : PyStr → PyStr
  | '/' :: rest => rest
  | s => s

/-- Modelled from the spec: `SimpleHTTPRequestHandler.do_GET`, the
external static-file response mechanism (standard-library code, not in
this repository). Per the spec it strips the query/fragment itself,
resolves the path against the document root, and produces 200 with the
file's bytes, its own directory handling, or its own 404 when nothing
exists at the resolved path. -/
def serveStatic (fs : FileSystem) (p : PyStr) : Response :=
  match lookupEntry fs (stripSep (urlparse_path p)) with
  | some (Entry.file b) => Response.ok b
  | some Entry.dir => Response.dirDelegate (stripSep (urlparse_path p))
  | none => Response.notFound

/-- The per-request handler state: `self.path` is the request target taken
from the request line. `SPAHTTPHandler` adds no state of its own and the
filesystem is only ever read, so this is the whole mutable state. -/
structure SPAHTTPHandler where
  path : PyStr

/-- Embedding of `SPAHTTPHandler.do_GET` (src/server.py lines 8-19): parse
the request URL; if a filesystem entry exists at `url.path[1:]` and
`url.path` does not end in `/`, delegate with `self.path` unchanged;
otherwise set `self.path = '/index.html'` and delegate. The handler state
is threaded explicitly to capture the mutation of `self.path`. -/
def SPAHTTPHandler.do_GET (fs : FileSystem) (h : SPAHTTPHandler) :
    SPAHTTPHandler × Response :=
  if os_path_exists fs ((urlparse_path h.path).drop 1)
      && !(endswith_sep (urlparse_path h.path)) then
    (h, serveStatic fs h.path)
  else
    ({ path := "/index.html".toList }, serveStatic fs ("/index.html".toList))

/-- The response of a fresh handler to a GET request for `p`: the server
builds a handler whose `path` is taken from the request line and invokes
`do_GET`. -/
def do_GET (fs : FileSystem) (p : PyStr) : Response :=
  (SPAHTTPHandler.do_GET fs { path := p }).2

/-- Modelled from the spec: the serving loop handles each request
independently; before each request the handler's `path` is re-set from
that request's request line. Two consecutive GETs against the same
filesystem, with the first handler state carried into the second
request. -/
def handle_two_requests (fs : FileSystem) (p1 p2 : PyStr) :
    Response × Response :=
  let s1 := SPAHTTPHandler.do_GET fs { path := p1 }
  let s2 := SPAHTTPHandler.do_GET fs { s1.1 with path := p2 }
  (s1.2, s2.2)

/-- Modelled from the spec: a HEAD response of the static-file mechanism,
status only (200 for a file, delegated directory handling, or 404). -/
inductive HeadResponse
  | ok
  | dirDelegate (rel : PyStr)
  | notFound
  deriving DecidableEq

/-- Modelled from the spec: `SimpleHTTPRequestHandler.do_HEAD`, the base
mechanism's HEAD handling (standard-library code, not in this
repository): same resolution as `serveStatic`, headers only. -/
def serveHead (fs : FileSystem) (p : PyStr) : HeadResponse :=
  match lookupEntry fs (stripSep (urlparse_path p)) with
  | some (Entry.file _) => HeadResponse.ok
  | some Entry.dir => HeadResponse.dirDelegate (stripSep (urlparse_path p))
  | none => HeadResponse.notFound

/-- `SPAHTTPHandler` overrides only `do_GET`, so a HEAD request reaches
the base mechanism with the request path unchanged. -/
def do_HEAD (fs : FileSystem) (p : PyStr) : HeadResponse :=
  serveHead fs p

/-- The spec's decision rule, written from its words (§4.1): strip the
leading path separator from the request path to form a candidate relative
filesystem path; if a filesystem entry exists at that candidate and the
request path does not end with a trailing separator, serve the request as
that static resource; otherwise rewrite the effective request path to the
fixed fallback document `/index.html` and serve that document via the
same mechanism. -/
def routerSpec (fs : FileSystem) (p : PyStr) : Response :=
  let requestPath := urlparse_path p
  let candidate := requestPath.drop 1
  if os_path_exists fs candidate && !(endswith_sep requestPath) then
    serveStatic fs p
  else
    serveStatic fs ("/index.html".toList)

-- A concrete filesystem used by the witnesses: the spec's §8 scenario,
-- `index.html` containing "<app/>" and `style.css` containing "body{}".
def fsDemo : FileSystem :=
  { entries :=
      [("index.html".toList, Entry.file [60, 97, 112, 112, 47, 62]),
       ("style.css".toList, Entry.file [98, 111, 100, 121, 123, 125]),
       ("assets".toList, Entry.dir)] }

example : do_GET fsDemo ("/style.css".toList) =
    Response.ok [98, 111, 100, 121, 123, 125] := by decide

example : do_GET fsDemo ("/dashboard/settings".toList) =
    Response.ok [60, 97, 112, 112, 47, 62] := by decide

example : do_GET fsDemo ("/style.css/".toList) =
    Response.ok [60, 97, 112, 112, 47, 62] := by decide

example : do_GET fsDemo ("/assets/".toList) =
    Response.ok [60, 97, 112, 112, 47, 62] := by decide

example : do_GET fsDemo ("/assets".toList) =
    Response.dirDelegate ("assets".toList) := by decide

example : do_GET fsDemo ("/style.css?v=2".toList) =
    Response.ok [98, 111, 100, 121, 123, 125] := by decide

/-! ### Basic lemmas about the router -/

/-- Unfolding of `do_GET` as a plain conditional on the parsed path. -/
theorem do_GET_eq (fs : FileSystem) (p : PyStr) :
    do_GET fs p =
      if os_path_exists fs ((urlparse_path p).drop 1)
          && !(endswith_sep (urlparse_path p)) then
        serveStatic fs p
      else
        serveStatic fs ("/index.html".toList) := by
  unfold do_GET SPAHTTPHandler.do_GET
  rw [apply_ite Prod.snd]

/-- A direct GET of `/index.html` is served by the static mechanism at
`/index.html`, whichever branch of the router it takes. -/
theorem serve_index (fs : FileSystem) :
    do_GET fs ("/index.html".toList) = serveStatic fs ("/index.html".toList) := by
  rw [do_GET_eq]
  split <;> rfl

/-- The static mechanism looks only at the parsed path. -/
theorem serveStatic_congr (fs : FileSystem) {a b : PyStr}
    (h : urlparse_path a = urlparse_path b) :
    serveStatic fs a = serveStatic fs b := by
  unfold serveStatic
  rw [h]

/-- The whole router looks only at the parsed path. -/
theorem do_GET_congr (fs : FileSystem) {a b : PyStr}
    (h : urlparse_path a = urlparse_path b) :
    do_GET fs a = do_GET fs b := by
  rw [do_GET_eq, do_GET_eq, h, serveStatic_congr fs h]

/-! ### Claims -/

/-- C1: for every GET request, the router strips exactly one leading
character from the parsed URL path to form a candidate relative path; if a
filesystem entry exists at that candidate and the path does not end with a
trailing separator, the request is served as that static resource, and in
every other case the effective request path is rewritten to the fixed
fallback document `/index.html`, which is then served. `do_GET` coincides
with the spec's decision rule `routerSpec` on every filesystem and every
request target. -/
theorem C1_router_matches_spec_rule (fs : FileSystem) (p : PyStr) :
    do_GET fs p = routerSpec fs p := by
  rw [do_GET_eq]
  rfl

/-- C2: a request whose URL path ends in a trailing separator is answered
identically to a direct request for `/index.html`, whatever the
filesystem holds (in particular even when a directory of that name
exists). -/
theorem C2_trailing_sep_forces_fallback (fs : FileSystem) (p : PyStr)
    (h : endswith_sep (urlparse_path p) = true) :
    do_GET fs p = do_GET fs ("/index.html".toList) := by
  rw [serve_index, do_GET_eq, h]
  simp

/-- Witness for C2 at the directory `/assets/` of `fsDemo`: the trailing
separator forces the fallback even though the directory exists. -/
theorem C2_witness :
    endswith_sep (urlparse_path ("/assets/".toList)) = true ∧
      do_GET fsDemo ("/assets/".toList) = do_GET fsDemo ("/index.html".toList) :=
  ⟨by decide, C2_trailing_sep_forces_fallback fsDemo ("/assets/".toList) (by decide)⟩

/-- C7: routing is a deterministic, stateless function of the request path
and the filesystem: over a two-request exchange (the only server-side
state being the handler's `path` field, re-set from each request line),
each response is exactly `do_GET` of that request's own path — so
identical requests get identical responses and no request influences a
later one. -/
theorem C7_stateless_deterministic (fs : FileSystem) (p1 p2 : PyStr) :
    handle_two_requests fs p1 p2 = (do_GET fs p1, do_GET fs p2) := rfl

/-- C9: a GET for the root path `/` is always routed to the fallback
document: `/` ends in the separator, so the fallback branch is taken and
the existence check (on the empty candidate) never decides the outcome. -/
theorem C9_root_always_fallback (fs : FileSystem) :
    do_GET fs ("/".toList) = do_GET fs ("/index.html".toList) ∧
      do_GET fs ("/".toList) = serveStatic fs ("/index.html".toList) := by
  have h : endswith_sep (urlparse_path ("/".toList)) = true := by decide
  have h2 : do_GET fs ("/".toList) = serveStatic fs ("/index.html".toList) := by
    rw [do_GET_eq, h]
    simp
  exact ⟨h2.trans (serve_index fs).symm, h2⟩

/-- C10: only `do_GET` is overridden, so a HEAD request reaches the base
static-file mechanism with its path unchanged, and a HEAD for a path with
no filesystem entry at its resolution gets that mechanism's not-found
response, not the fallback document. -/
theorem C10_head_not_rewritten (fs : FileSystem) (p : PyStr)
    (hn : lookupEntry fs (stripSep (urlparse_path p)) = none) :
    do_HEAD fs p = serveHead fs p ∧ do_HEAD fs p = HeadResponse.notFound := by
  refine ⟨rfl, ?_⟩
  unfold do_HEAD serveHead
  rw [hn]

/-- Witness for C10: a HEAD for `/does-not-exist` against `fsDemo` gets
the 404, not the fallback document's headers. -/
theorem C10_witness :
    do_HEAD fsDemo ("/does-not-exist".toList) = serveHead fsDemo ("/does-not-exist".toList) ∧
      do_HEAD fsDemo ("/does-not-exist".toList) = HeadResponse.notFound :=
  C10_head_not_rewritten fsDemo ("/does-not-exist".toList) (by decide)

theorem stripSep_cons (rest : PyStr) : stripSep ('/' :: rest) = rest := rfl

/-- A GET for a plain path (already its own parse) starting with the
separator, not ending with it, with a regular file at its relative
resolution, is answered with 200 and that file's bytes. -/
theorem file_request_ok (fs : FileSystem) (p : PyStr) (b : List Nat)
    (hq : urlparse_path p = p) (hs : p.head? = some '/')
    (he : endswith_sep p = false)
    (hf : lookupEntry fs (p.drop 1) = some (Entry.file b)) :
    do_GET fs p = Response.ok b := by
  cases p with
  | nil => simp at hs
  | cons c rest =>
    have hc : c = '/' := by simpa using hs
    subst hc
    cases rest with
    | nil => exact absurd he (by decide)
    | cons r rs =>
      rw [do_GET_eq, hq]
      have hdrop : ('/' :: r :: rs).drop 1 = r :: rs := rfl
      rw [hdrop] at hf
      simp [os_path_exists, hf, he, serveStatic, hq, stripSep_cons]

/-- C3: for every request path `p` (its own parse, starting with the
separator) with a regular file at its relative resolution `p[1:]` and not
ending with a separator, the response body is exactly that file's
bytes. -/
theorem C3_existing_file_served (fs : FileSystem) (p : PyStr) (b : List Nat)
    (hq : urlparse_path p = p) (hs : p.head? = some '/')
    (he : endswith_sep p = false)
    (hf : lookupEntry fs (p.drop 1) = some (Entry.file b)) :
    do_GET fs p = Response.ok b :=
  file_request_ok fs p b hq hs he hf

/-- Witness for C3: `/style.css` against `fsDemo` is answered with the
bytes of `style.css`. -/
theorem C3_witness :
    urlparse_path ("/style.css".toList) = "/style.css".toList ∧
    ("/style.css".toList).head? = some '/' ∧
    endswith_sep ("/style.css".toList) = false ∧
    lookupEntry fsDemo (("/style.css".toList).drop 1) =
      some (Entry.file [98, 111, 100, 121, 123, 125]) ∧
    do_GET fsDemo ("/style.css".toList) = Response.ok [98, 111, 100, 121, 123, 125] :=
  ⟨by decide, by decide, by decide, by decide,
    C3_existing_file_served fsDemo ("/style.css".toList) [98, 111, 100, 121, 123, 125]
      (by decide) (by decide) (by decide) (by decide)⟩

/-- C4: for every request path `p` (its own parse, starting with the
separator) with no filesystem entry at its relative resolution `p[1:]`,
the response is identical to a direct request for `/index.html`. -/
theorem C4_missing_entry_fallback (fs : FileSystem) (p : PyStr)
    (hq : urlparse_path p = p) (_hs : p.head? = some '/')
    (hn : lookupEntry fs (p.drop 1) = none) :
    do_GET fs p = do_GET fs ("/index.html".toList) := by
  rw [serve_index, do_GET_eq, hq]
  rw [List.drop_one] at hn
  simp [os_path_exists, hn]

/-- Witness for C4: `/bogus-route` against `fsDemo` is answered exactly
like `/index.html`. -/
theorem C4_witness :
    urlparse_path ("/bogus-route".toList) = "/bogus-route".toList ∧
    ("/bogus-route".toList).head? = some '/' ∧
    lookupEntry fsDemo (("/bogus-route".toList).drop 1) = none ∧
    do_GET fsDemo ("/bogus-route".toList) = do_GET fsDemo ("/index.html".toList) :=
  ⟨by decide, by decide, by decide,
    C4_missing_entry_fallback fsDemo ("/bogus-route".toList)
      (by decide) (by decide) (by decide)⟩

/-- C5: when `index.html` exists as a regular file and nothing exists at
`bogus-route`, a direct GET of `/index.html` (exists branch) and a GET of
`/bogus-route` (fallback branch) are byte-identical: both return 200 with
the bytes of `index.html`. -/
theorem C5_round_trip (fs : FileSystem) (b : List Nat)
    (hi : lookupEntry fs ("index.html".toList) = some (Entry.file b))
    (hb : lookupEntry fs ("bogus-route".toList) = none) :
    do_GET fs ("/index.html".toList) = do_GET fs ("/bogus-route".toList) ∧
      do_GET fs ("/index.html".toList) = Response.ok b := by
  have h1 : do_GET fs ("/index.html".toList) = Response.ok b := by
    apply file_request_ok fs ("/index.html".toList) b (by decide) (by decide) (by decide)
    rw [show ("/index.html".toList).drop 1 = "index.html".toList from by decide]
    exact hi
  have h2 : do_GET fs ("/bogus-route".toList) = Response.ok b := by
    rw [do_GET_eq]
    rw [show (urlparse_path ("/bogus-route".toList)).drop 1 = "bogus-route".toList
      from by decide]
    simp only [os_path_exists, hb, Option.isSome_none, Bool.and_false, Bool.false_and,
      Bool.false_eq_true, if_false]
    unfold serveStatic
    rw [show stripSep (urlparse_path ("/index.html".toList)) = "index.html".toList
      from by decide, hi]
  exact ⟨h1.trans h2.symm, h1⟩

/-- Witness for C5 on `fsDemo`. -/
theorem C5_witness :
    lookupEntry fsDemo ("index.html".toList) =
      some (Entry.file [60, 97, 112, 112, 47, 62]) ∧
    lookupEntry fsDemo ("bogus-route".toList) = none ∧
    (do_GET fsDemo ("/index.html".toList) = do_GET fsDemo ("/bogus-route".toList) ∧
      do_GET fsDemo ("/index.html".toList) = Response.ok [60, 97, 112, 112, 47, 62]) :=
  ⟨by decide, by decide,
    C5_round_trip fsDemo [60, 97, 112, 112, 47, 62] (by decide) (by decide)⟩

/-- C8: on the fallback branch the router only rewrites the path and
delegates: whenever the exists-and-no-trailing-separator test fails and
`index.html` is absent, the response is exactly the delegated mechanism's
not-found response for `/index.html`, never suppressed or transformed. -/
theorem C8_fallback_delegates_not_found (fs : FileSystem) (p : PyStr)
    (hc : (os_path_exists fs ((urlparse_path p).drop 1)
      && !(endswith_sep (urlparse_path p))) = false)
    (hi : lookupEntry fs ("index.html".toList) = none) :
    do_GET fs p = serveStatic fs ("/index.html".toList) ∧
      do_GET fs p = Response.notFound := by
  have h1 : do_GET fs p = serveStatic fs ("/index.html".toList) := by
    rw [do_GET_eq, hc]
    simp
  have h2 : serveStatic fs ("/index.html".toList) = Response.notFound := by
    unfold serveStatic
    rw [show stripSep (urlparse_path ("/index.html".toList)) = "index.html".toList
      from by decide, hi]
  exact ⟨h1, h1.trans h2⟩

-- An empty document root, for the missing-fallback scenario.
def fsEmpty : FileSystem := { entries := [] }

/-- Witness for C8: with an empty document root, `/missing` gets the
static mechanism's own 404 for `/index.html`. -/
theorem C8_witness :
    (os_path_exists fsEmpty ((urlparse_path ("/missing".toList)).drop 1)
      && !(endswith_sep (urlparse_path ("/missing".toList)))) = false ∧
    lookupEntry fsEmpty ("index.html".toList) = none ∧
    (do_GET fsEmpty ("/missing".toList) = serveStatic fsEmpty ("/index.html".toList) ∧
      do_GET fsEmpty ("/missing".toList) = Response.notFound) :=
  ⟨by decide, by decide,
    C8_fallback_delegates_not_found fsEmpty ("/missing".toList) (by decide) (by decide)⟩

/-! ### Query strings and the parsed path -/

theorem takeWhile_append_of_all {pr : Char → Bool} {l1 l2 : List Char}
    (h : ∀ x ∈ l1, pr x = true) :
    (l1 ++ l2).takeWhile pr = l1 ++ l2.takeWhile pr := by
  induction l1 with
  | nil => simp
  | cons a t ih =>
    have ha : pr a = true := h a (List.mem_cons_self a t)
    simp [List.takeWhile_cons, ha,
      ih (fun x hx => h x (List.mem_cons_of_mem a hx))]

theorem takeWhile_all_eq_self {pr : Char → Bool} {l : List Char}
    (h : ∀ x ∈ l, pr x = true) : l.takeWhile pr = l :=
  List.takeWhile_eq_self_iff.mpr h

theorem dropWhile_netloc_query (t : PyStr) :
    ∀ rest : PyStr, (∀ c ∈ rest, c ≠ '?' ∧ c ≠ '#') →
      (((rest ++ '?' :: t).dropWhile
          (fun c => c != '/' && c != '?' && c != '#')).takeWhile
            (fun c => c != '?')) =
        ((rest.dropWhile
          (fun c => c != '/' && c != '?' && c != '#')).takeWhile
            (fun c => c != '?')) := by
  intro rest h
  induction rest with
  | nil =>
    have h1 : (fun c => c != '/' && c != '?' && c != '#') '?' = false := by decide
    have h2 : (fun c => c != '?') '?' = false := by decide
    simp [List.dropWhile_cons, List.takeWhile_cons, h1, h2]
  | cons c cs ih =>
    obtain ⟨hcq, hch⟩ := h c (List.mem_cons_self c cs)
    have hrest : ∀ x ∈ cs, x ≠ '?' ∧ x ≠ '#' :=
      fun x hx => h x (List.mem_cons_of_mem c hx)
    by_cases hsl : c = '/'
    · subst hsl
      have h1 : (fun c => c != '/' && c != '?' && c != '#') '/' = false := by decide
      have hq : ∀ x ∈ '/' :: cs, (fun c => c != '?') x = true := by
        intro x hx
        rcases List.mem_cons.mp hx with hx | hx
        · subst hx; decide
        · simpa using (hrest x hx).1
      have hq2 : ∀ x ∈ cs, (fun c => c != '?') x = true :=
        fun x hx => hq x (List.mem_cons_of_mem '/' hx)
      have e1 : (('/' :: cs ++ '?' :: t).dropWhile
          (fun c => c != '/' && c != '?' && c != '#')) = '/' :: cs ++ '?' :: t := by
        simp [List.dropWhile_cons, h1]
      have e2 : (('/' :: cs).dropWhile
          (fun c => c != '/' && c != '?' && c != '#')) = '/' :: cs := by
        simp [List.dropWhile_cons, h1]
      rw [e1, e2]
      rw [show ('/' :: cs ++ '?' :: t) = ('/' :: cs) ++ '?' :: t by simp]
      rw [takeWhile_append_of_all hq, takeWhile_all_eq_self hq]
      have h2 : (fun c => c != '?') '?' = false := by decide
      simp [List.takeWhile_cons, h2]
    · have h1 : (fun c => c != '/' && c != '?' && c != '#') c = true := by
        simp [bne_iff_ne, hsl, hcq, hch]
      have e1 : ((c :: cs ++ '?' :: t).dropWhile
          (fun c => c != '/' && c != '?' && c != '#')) =
          ((cs ++ '?' :: t).dropWhile (fun c => c != '/' && c != '?' && c != '#')) := by
        simp [List.dropWhile_cons, h1]
      have e2 : ((c :: cs).dropWhile
          (fun c => c != '/' && c != '?' && c != '#')) =
          (cs.dropWhile (fun c => c != '/' && c != '?' && c != '#')) := by
        simp [List.dropWhile_cons, h1]
      rw [e1, e2]
      exact ih hrest

/-- Appending a query string to a path that contains no `?` and no `#`
does not change the parsed URL path. -/
theorem urlparse_path_append_query (p q : PyStr)
    (hp : ∀ c ∈ p, c ≠ '?' ∧ c ≠ '#') :
    urlparse_path (p ++ '?' :: q) = urlparse_path p := by
  have hph : ∀ x ∈ p, (fun c => c != '#') x = true := by
    intro x hx
    simpa using (hp x hx).2
  have hpq : ∀ x ∈ p, (fun c => c != '?') x = true := by
    intro x hx
    simpa using (hp x hx).1
  unfold urlparse_path stripFragment
  have hfrag : (p ++ '?' :: q).takeWhile (fun c => c != '#') =
      p ++ '?' :: q.takeWhile (fun c => c != '#') := by
    have hall : ∀ x ∈ p ++ ['?'], (fun c => c != '#') x = true := by
      intro x hx
      rcases List.mem_append.mp hx with hx | hx
      · exact hph x hx
      · simp at hx
        subst hx
        decide
    rw [show p ++ '?' :: q = (p ++ ['?']) ++ q by simp]
    rw [takeWhile_append_of_all hall]
    simp [List.takeWhile_cons]
  rw [hfrag, takeWhile_all_eq_self hph]
  generalize q.takeWhile (fun c => c != '#') = t
  match p, hp, hpq with
  | [], _, _ =>
    cases t with
    | nil => decide
    | cons t0 ts =>
      have hne : ¬('?' = '/' ∧ t0 = '/') := fun hand => absurd hand.1 (by decide)
      simp [splitNetloc, hne, List.takeWhile_cons]
  | [c], hp1, hpq1 =>
    have hcq : c ≠ '?' := (hp1 c (List.mem_cons_self c [])).1
    have hne : ¬(c = '/' ∧ '?' = '/') := fun hand => absurd hand.2 (by decide)
    have hqc : (fun c => c != '?') c = true := by simpa using hcq
    simp [splitNetloc, hne, List.takeWhile_cons, hqc]
  | c1 :: c2 :: rest, hp2, hpq2 =>
    have hrest : ∀ c ∈ rest, c ≠ '?' ∧ c ≠ '#' := by
      intro x hx
      exact hp2 x (List.mem_cons_of_mem c1 (List.mem_cons_of_mem c2 hx))
    by_cases hnl : c1 = '/' ∧ c2 = '/'
    · have e1 : splitNetloc (c1 :: c2 :: (rest ++ '?' :: t)) =
          (rest ++ '?' :: t).dropWhile (fun c => c != '/' && c != '?' && c != '#') := by
        simp [splitNetloc, hnl]
      have e2 : splitNetloc (c1 :: c2 :: rest) =
          rest.dropWhile (fun c => c != '/' && c != '?' && c != '#') := by
        simp [splitNetloc, hnl]
      rw [show (c1 :: c2 :: rest) ++ '?' :: t = c1 :: c2 :: (rest ++ '?' :: t) by simp,
        e1, e2]
      exact dropWhile_netloc_query t rest hrest
    · have e1 : splitNetloc (c1 :: c2 :: (rest ++ '?' :: t)) =
          c1 :: c2 :: (rest ++ '?' :: t) := by
        simp [splitNetloc, hnl]
      have e2 : splitNetloc (c1 :: c2 :: rest) = c1 :: c2 :: rest := by
        simp [splitNetloc, hnl]
      rw [show (c1 :: c2 :: rest) ++ '?' :: t = c1 :: c2 :: (rest ++ '?' :: t) by simp,
        e1, e2]
      rw [show c1 :: c2 :: (rest ++ '?' :: t) = (c1 :: c2 :: rest) ++ '?' :: t by simp]
      rw [takeWhile_append_of_all hpq2, takeWhile_all_eq_self hpq2]
      have h2 : (fun c => c != '?') '?' = false := by decide
      simp [List.takeWhile_cons, h2]

/-- C6: query strings are excluded from the existence check: routing is
decided on the parsed path alone, so appending any query string to a
request for an existing file leaves the response unchanged — the file is
still served, not the fallback. -/
theorem C6_query_string_excluded (fs : FileSystem) (p q : PyStr) (b : List Nat)
    (hp : ∀ c ∈ p, c ≠ '?' ∧ c ≠ '#')
    (hq : urlparse_path p = p) (hs : p.head? = some '/')
    (he : endswith_sep p = false)
    (hf : lookupEntry fs (p.drop 1) = some (Entry.file b)) :
    do_GET fs (p ++ '?' :: q) = do_GET fs p ∧
      do_GET fs (p ++ '?' :: q) = Response.ok b := by
  have hcong : do_GET fs (p ++ '?' :: q) = do_GET fs p :=
    do_GET_congr fs (urlparse_path_append_query p q hp)
  exact ⟨hcong, hcong.trans (file_request_ok fs p b hq hs he hf)⟩

/-- Witness for C6: `/style.css?v=2` against `fsDemo` is still answered
with the bytes of `style.css`. -/
theorem C6_witness :
    (∀ c ∈ ("/style.css".toList), c ≠ '?' ∧ c ≠ '#') ∧
    urlparse_path ("/style.css".toList) = "/style.css".toList ∧
    ("/style.css".toList).head? = some '/' ∧
    endswith_sep ("/style.css".toList) = false ∧
    lookupEntry fsDemo (("/style.css".toList).drop 1) =
      some (Entry.file [98, 111, 100, 121, 123, 125]) ∧
    (do_GET fsDemo ("/style.css".toList ++ '?' :: "v=2".toList) =
        do_GET fsDemo ("/style.css".toList) ∧
      do_GET fsDemo ("/style.css".toList ++ '?' :: "v=2".toList) =
        Response.ok [98, 111, 100, 121, 123, 125]) :=
  ⟨by decide, by decide, by decide, by decide, by decide,
    C6_query_string_excluded fsDemo ("/style.css".toList) ("v=2".toList)
      [98, 111, 100, 121, 123, 125]
      (by decide) (by decide) (by decide) (by decide) (by decide)⟩
